import Mathlib

/-!
Verification of the task-orchestration core of BiliAudioDownloader.

The definitions below are a shallow embedding of the repository's Python
sources:

* `app/models.py` — the `TaskStatus` enumeration;
* `app/tasks.py` — the module-level `task_storage` dict, `update_task_status`,
  the background pipeline `process_video_task`, and the REST endpoints;
* `app/mcp_routes.py` — the direct HTTP MCP tool surface (which declares its
  own, second, `task_storage` dict);
* `app/mcp_sse.py` — the JSON-RPC/SSE MCP surface (`call_tool`,
  `handle_messages`), which imports `task_storage` from `app.tasks`;
* `app/services/video_service.py` — only its observable contract
  (success flag, message, produced artifacts) is modelled, via `PipelineEnv`.

Python dicts are modelled as association lists keyed by task id (`storeGet` /
`storeSet` mirror `d[k]` reads and writes, including insertion-order
semantics).  Timestamps (`datetime.now().isoformat()`) are modelled as a
natural-number clock: each store mutation happens at a strictly later clock
tick, and `update_task_status` stamps both `created_at` and `updated_at` with
the current tick, exactly as the Python writes `datetime.now()` into both
fields.  Python `float` progress only ever takes the integer values
0/30/60/100, so it is a `Nat`.
-/

namespace BiliAudio

/-- `TaskStatus` from `app/models.py` (a `str` enum with six members). -/
inductive TaskStatus where
  | pending
  | downloading
  | processing
  | completed
  | failed
  | cancelled
deriving DecidableEq, Repr

/-- The `str` value of each enum member (`models.py`); this is what a Python
f-string interpolation of a `(str, Enum)` member renders. -/
def TaskStatus.value : TaskStatus → String
  | .pending => "pending"
  | .downloading => "downloading"
  | .processing => "processing"
  | .completed => "completed"
  | .failed => "failed"
  | .cancelled => "cancelled"

/-- The metadata dict assembled in `tasks.py` lines 78-83. -/
structure Metadata where
  total_duration : Nat
  segment_count : Nat
  bv_number : String
  task_id : String
deriving DecidableEq, Repr

/-- One value of the `task_storage` dict: the record written by
`update_task_status` (`tasks.py` lines 20-31) plus the two keys
(`"segments"`, `"metadata"`) added directly at completion
(`tasks.py` lines 95-96), which are absent (`none`) otherwise. -/
structure TaskRecord where
  task_id : String
  status : TaskStatus
  progress : Nat
  message : String
  created_at : Nat
  updated_at : Nat
  eta : Option String
  processed_slices : Option Nat
  total_slices : Option Nat
  result_url : Option String
  segments : Option (List String)
  metadata : Option Metadata
deriving DecidableEq, Repr

/-- A `task_storage` dict, as an insertion-ordered association list. -/
abbrev TaskStore := List (String × TaskRecord)

/-- `task_storage.get(task_id)` / `task_id in task_storage`. -/
def storeGet (s : TaskStore) (tid : String) : Option TaskRecord :=
  match s with
  | [] => none
  | (k, r) :: rest => if k = tid then some r else storeGet rest tid

/-- `task_storage[task_id] = record`: replaces in place if the key exists
(keeping its position, as Python dicts do), otherwise appends. -/
def storeSet (s : TaskStore) (tid : String) (r : TaskRecord) : TaskStore :=
  match s with
  | [] => [(tid, r)]
  | (k, r') :: rest => if k = tid then (k, r) :: rest else (k, r') :: storeSet rest tid r

/-- `update_task_status` (`tasks.py` lines 17-31; byte-identical copy in
`mcp_routes.py` lines 21-35).  Note that it assigns a **whole new dict** to
`task_storage[task_id]`: every field is rewritten, `created_at` and
`updated_at` are both set to the current time, and any previously stored
`segments` / `metadata` keys are absent from the new dict. -/
def update_task_status (s : TaskStore) (now : Nat) (task_id : String)
    (status : TaskStatus) (progress : Nat) (message : String)
    (result_url : Option String) (eta : Option String)
    (processed_slices : Option Nat) (total_slices : Option Nat) : TaskStore :=
  storeSet s task_id
    { task_id := task_id
      status := status
      progress := progress
      message := message
      created_at := now
      updated_at := now
      eta := eta
      processed_slices := processed_slices
      total_slices := total_slices
      result_url := result_url
      segments := none
      metadata := none }

/-- `task_storage[task_id]["segments"] = segments` (`tasks.py` line 95).
In every reachable trace the record exists at this point; if it did not,
Python would raise `KeyError`, modelled here as a no-op. -/
def setSegments (s : TaskStore) (tid : String) (segs : List String) : TaskStore :=
  match storeGet s tid with
  | some r => storeSet s tid { r with segments := some segs }
  | none => s

/-- `task_storage[task_id]["metadata"] = metadata` (`tasks.py` line 96). -/
def setMetadata (s : TaskStore) (tid : String) (m : Metadata) : TaskStore :=
  match storeGet s tid with
  | some r => storeSet s tid { r with metadata := some m }
  | none => s

/-! ### The media-pipeline environment

`process_video_task` calls three `video_service` operations whose outcomes
are external to the task core.  A `PipelineEnv` fixes one outcome for each:
the success flag and message of `download_video`, `extract_audio` and
`split_audio`, the directory `split_audio` returns, and the directory
listing `os.listdir(slices_dir)` that `tasks.py` line 68 sees. -/
structure PipelineEnv where
  fetch_ok : Bool
  fetch_msg : String
  extract_ok : Bool
  extract_msg : String
  audio_path : String
  split_ok : Bool
  split_msg : String
  slices_dir : String
  listing : List String
deriving DecidableEq, Repr

/-- String comparison by code points, i.e. lexicographic comparison of the
character lists; this is the order Python's `sorted` uses on `str`, and it
is equivalent to Lean's `String` order (`String.le_iff_toList_le`). -/
def strDataLe (a b : String) : Prop := a.data ≤ b.data

instance : DecidableRel strDataLe := fun a b => by
  unfold strDataLe; infer_instance

instance : IsTotal String strDataLe := ⟨fun a b => le_total a.data b.data⟩

instance : IsTrans String strDataLe := ⟨fun _ _ _ => le_trans⟩

/-- Python `f.endswith('.wav')`: the character sequence `".wav"` is a suffix
of `f`'s character sequence. -/
def endswith_wav (f : String) : Bool := ".wav".data.isSuffixOf f.data

/-- `sorted([f for f in os.listdir(slices_dir) if f.endswith('.wav')])`
(`tasks.py` line 68).  Python's `sorted` produces the unique ≤-sorted
permutation of its input; `List.insertionSort` computes the same list. -/
def slice_files (env : PipelineEnv) : List String :=
  List.insertionSort strDataLe (env.listing.filter endswith_wav)

/-- `segments = [os.path.join(slices_dir, f) for f in slice_files]`
(`tasks.py` line 75). -/
def segmentsOf (env : PipelineEnv) : List String :=
  (slice_files env).map fun f => env.slices_dir ++ "/" ++ f

/-- The metadata dict built at `tasks.py` lines 78-83; note line 72:
`total_duration = total_slices * 30` (the comment there says "assume each
segment is 30 seconds"). -/
def metadataOf (env : PipelineEnv) (tid bv : String) : Metadata :=
  { total_duration := (slice_files env).length * 30
    segment_count := (slice_files env).length
    bv_number := bv
    task_id := tid }

/-- The default `slice_length` parameter of `VideoService.split_audio`
(`video_service.py` line 158), in milliseconds. -/
def split_audio_slice_length_default : Nat := 45000

/-! ### The orchestrator, `process_video_task` (`tasks.py` lines 33-114)

`process_video_task` performs a fixed sequence of `task_storage` mutations
determined by the three pipeline outcomes.  Each mutation is one atomic
Python dict assignment; we name them so that traces can interleave protocol
requests between any two of them. -/

/-- One atomic `task_storage` mutation performed by `process_video_task`. -/
inductive OrchWrite where
  | wDownloading
  | wProcessing30
  | wProcessing60
  | wFailed (msg : String)
  | wCompleted
  | wSegments
  | wMetadata
deriving DecidableEq, Repr

/-- The mutations after a successful `split_audio`
(`tasks.py` lines 89-96): the Completed status write, then the two direct
key assignments. -/
def splitChunk (env : PipelineEnv) : List OrchWrite :=
  if env.split_ok = false then
    [.wFailed ("任务失败: 音频分割失败: " ++ env.split_msg)]
  else
    [.wCompleted, .wSegments, .wMetadata]

/-- The mutations after a successful `download_video`
(`tasks.py` lines 53-96). -/
def extractChunk (env : PipelineEnv) : List OrchWrite :=
  if env.extract_ok = false then
    [.wFailed ("任务失败: 音频提取失败: " ++ env.extract_msg)]
  else
    .wProcessing60 :: splitChunk env

/-- The mutations after the initial Downloading write
(`tasks.py` lines 49-96).  A step failure raises, and the `except` block
(lines 100-114) writes the Failed record whose message wraps the step's
message with "任务失败: ". -/
def fetchChunk (env : PipelineEnv) : List OrchWrite :=
  if env.fetch_ok = false then
    [.wFailed ("任务失败: 视频下载失败: " ++ env.fetch_msg)]
  else
    .wProcessing30 :: extractChunk env

/-- The complete mutation sequence of one `process_video_task` run. -/
def orchProgram (env : PipelineEnv) : List OrchWrite :=
  .wDownloading :: fetchChunk env

/-- The store effect of one atomic orchestrator mutation, each matching the
`update_task_status` call (or direct key assignment) at the cited line of
`tasks.py`. -/
def applyWrite (env : PipelineEnv) (tid bv : String) (now : Nat)
    (w : OrchWrite) (s : TaskStore) : TaskStore :=
  match w with
  | .wDownloading =>      -- line 45
      update_task_status s now tid .downloading 0 "准备处理" none none none none
  | .wProcessing30 =>     -- line 53
      update_task_status s now tid .processing 30 "视频下载完成，正在提取音频" none none none none
  | .wProcessing60 =>     -- line 60
      update_task_status s now tid .processing 60 "音频提取完成，正在切分音频" none none none none
  | .wFailed msg =>       -- line 114
      update_task_status s now tid .failed 0 msg none none none none
  | .wCompleted =>        -- lines 89-92
      update_task_status s now tid .completed 100 "音频切分完成"
        (some ("/api/v1/tasks/" ++ tid ++ "/segments")) none none none
  | .wSegments =>         -- line 95
      setSegments s tid (segmentsOf env)
  | .wMetadata =>         -- line 96
      setMetadata s tid (metadataOf env tid bv)

/-- Run a mutation sequence to completion, ticking the clock per mutation. -/
def runProgram (env : PipelineEnv) (tid bv : String) :
    List OrchWrite → Nat → TaskStore → TaskStore
  | [], _, s => s
  | w :: rest, now, s => runProgram env tid bv rest (now + 1) (applyWrite env tid bv now w s)

/-! ### Filesystem effects

For the cleanup claim the filesystem is a list of existing paths; the
task-scoped working directory is `os.path.join(settings.temp_dir, task_id)`
with `temp_dir = "./temp"` (`config.py`). -/

abbrev Fs := List String

def temp_dir : String := "./temp"

/-- The task-scoped working directory. -/
def workdir (tid : String) : String := temp_dir ++ "/" ++ tid

/-- `os.makedirs(download_dir, exist_ok=True)` (`video_service.py` line 26). -/
def addPath (p : String) (fs : Fs) : Fs := if p ∈ fs then fs else p :: fs

/-- `VideoService.cleanup_temp_files` (`video_service.py` lines 208-217):
`shutil.rmtree` of the working directory. -/
def cleanup_temp_files (tid : String) (fs : Fs) : Fs :=
  fs.filter fun q => q ≠ workdir tid

/-- The end-to-end effect of one `process_video_task` call on the store and
the filesystem (`tasks.py` lines 33-114): `download_video` creates the
working directory; on any step failure the `except` block removes it and
writes the Failed record; on success it is left in place. -/
def process_video_task (env : PipelineEnv) (tid bv : String) (now : Nat)
    (s : TaskStore) (fs : Fs) : TaskStore × Fs :=
  let s' := runProgram env tid bv (orchProgram env) now s
  let fs' := addPath (workdir tid) fs
  if env.fetch_ok && env.extract_ok && env.split_ok then
    (s', fs')
  else
    (s', cleanup_temp_files tid fs')

/-! ### Interleaved traces

A trace starts from the task's creation (`create_task`, `tasks.py`
lines 121-147: a fresh id, a Pending record, the orchestrator scheduled) and
interleaves the orchestrator's pending mutations with cancellation requests.
This is exactly the repertoire of operations that can touch one task's
record: the REST surface only reads, and the MCP tool `cancel_task` is the
only other writer. -/

/-- The store effect of the `cancel_task` tool branch (`mcp_sse.py`
lines 189-211; the direct-HTTP copy at `mcp_routes.py` lines 233-259 is
identical): refuse if the record is terminal, else write a Cancelled record. -/
def cancel_tool_store (s : TaskStore) (now : Nat) (tid : String) : TaskStore :=
  match storeGet s tid with
  | none => s
  | some r =>
      if r.status = .completed ∨ r.status = .failed ∨ r.status = .cancelled then s
      else update_task_status s now tid .cancelled 0 "任务已取消" none none none none

/-- An event that can happen to a created task: the next pending
orchestrator mutation, or a cancellation request. -/
inductive Ev where
  | orch
  | cancel
deriving DecidableEq, Repr

/-- A point in a task's lifetime: the store, the orchestrator mutations not
yet executed, and the clock. -/
structure TraceState where
  store : TaskStore
  rem : List OrchWrite
  clock : Nat

def stepEv (env : PipelineEnv) (tid bv : String) (st : TraceState) : Ev → TraceState
  | .orch =>
      match st.rem with
      | [] => st
      | w :: rest => ⟨applyWrite env tid bv st.clock w st.store, rest, st.clock + 1⟩
  | .cancel => ⟨cancel_tool_store st.store st.clock tid, st.rem, st.clock + 1⟩

/-- The state right after `create_task` (`tasks.py` lines 121-147) wrote the
Pending record at clock 0 and scheduled `process_video_task`. -/
def initState (env : PipelineEnv) (tid : String) (s0 : TaskStore) : TraceState :=
  ⟨update_task_status s0 0 tid .pending 0 "任务已创建，正在排队处理" none none none none,
   orchProgram env, 1⟩

/-- The state after the given events have happened to a freshly created task. -/
def runEvents (env : PipelineEnv) (tid bv : String) (s0 : TaskStore)
    (evs : List Ev) : TraceState :=
  evs.foldl (stepEv env tid bv) (initState env tid s0)


/-! ### The two module-level task stores

`app/tasks.py` line 15 creates `task_storage = {}`; the REST routes in the
same file use it, and `app/mcp_sse.py` line 16 imports that same dict.
`app/mcp_routes.py` line 19, however, executes its own `task_storage = {}` —
a second, distinct dict — although the comment above it reads
"全局任务存储（与现有tasks.py共享）" ("global task storage, shared with the
existing tasks.py"). -/
structure ProcessState where
  tasks_storage : TaskStore
  mcp_routes_storage : TaskStore
deriving DecidableEq, Repr

/-- Both dicts start empty at import time. -/
def initialProcess : ProcessState := ⟨[], []⟩

/-- REST `POST /tasks` (`tasks.py` lines 121-147): allocates an id, writes
the Pending record into `app.tasks.task_storage` and schedules
`process_video_task`. -/
def rest_create_task (ps : ProcessState) (now : Nat) (tid : String) : ProcessState :=
  { ps with tasks_storage :=
      (update_task_status ps.tasks_storage now tid .pending 0
        "任务已创建，正在排队处理" none none none none) }

/-! ### Shared text rendering of the MCP tools

The `"content"` entries of the MCP responses are all of
`{"type": "text", "text": ...}` shape, so a response's content is modelled
as its list of text strings. -/

/-- `for i, segment in enumerate(segments): ... f"{i+1}. {segment}\n"`. -/
def segmentLines : Nat → List String → String
  | _, [] => ""
  | i, sg :: rest => toString i ++ ". " ++ sg ++ "\n" ++ segmentLines (i + 1) rest

/-- Status text of the SSE `get_task_status` tool (`mcp_sse.py`
lines 135-154). -/
def sse_status_text (task : TaskRecord) : String :=
  "任务状态: " ++ task.status.value ++ "\n" ++
  "进度: " ++ toString task.progress ++ "%\n" ++
  "消息: " ++ task.message ++ "\n" ++
  "创建时间: " ++ toString task.created_at ++ "\n" ++
  "更新时间: " ++ toString task.updated_at ++ "\n" ++
  (match task.eta with
   | some e => if e = "" then "" else "预计完成: " ++ e ++ "\n"
   | none => "") ++
  (match task.processed_slices, task.total_slices with
   | some p, some t =>
       if p = 0 ∨ t = 0 then ""
       else "音频片段: " ++ toString p ++ "/" ++ toString t ++ "\n"
   | _, _ => "") ++
  (if task.status = .completed then
    "\n✅ 任务完成！\n可使用 get_audio_segments 获取音频片段信息。\n结果URL: " ++
      task.result_url.getD "None"
   else if task.status = .failed then
    "\n❌ 任务失败\n错误信息: " ++ task.message
   else "")

/-- Segment-listing text of the SSE `get_audio_segments` tool (`mcp_sse.py`
lines 174-187). -/
def sse_segments_text (task : TaskRecord) : String :=
  "音频片段信息\n\n" ++
  "总片段数: " ++ toString (match task.metadata with
    | some m => m.segment_count
    | none => (task.segments.getD []).length) ++ "\n" ++
  "总时长: " ++ toString (match task.metadata with
    | some m => m.total_duration
    | none => 0) ++ "秒\n" ++
  "B站视频: " ++ (match task.metadata with
    | some m => m.bv_number
    | none => "N/A") ++ "\n\n" ++
  "片段列表:\n" ++ segmentLines 1 (task.segments.getD [])

/-- Text of the SSE create tool's success response (`mcp_sse.py`
lines 119-123). -/
def sse_create_text (tid bv : String) : String :=
  "✅ 音频切分任务已创建\n\n任务ID: " ++ tid ++ "\nB站视频: " ++ bv ++
  "\n状态: 准备中\n\n任务正在后台处理中，您可以使用 get_task_status 查询进度。"

/-- Arguments of an MCP tool call (`arguments.get("bv_number")`,
`arguments.get("task_id")`). -/
structure ToolArgs where
  bv_number : Option String
  task_id : Option String
deriving DecidableEq, Repr

/-- The SSE-transport `call_tool` (`mcp_sse.py` lines 104-213), acting on
`app.tasks.task_storage`.  `newTaskId` stands for the freshly generated
`str(uuid.uuid4())`.  The result is the new store, the response's text
contents, and — for a successful create — the `process_video_task`
invocation dispatched via `asyncio.create_task(asyncio.to_thread(...))`.
Python's `if not x` treats both a missing argument and an empty string as
falsy, hence the two-stage checks. -/
def sse_call_tool (s : TaskStore) (now : Nat) (newTaskId : String)
    (name : String) (args : ToolArgs) :
    TaskStore × List String × Option (String × String) :=
  if name = "create_audio_segmentation_task" then
    match args.bv_number with
    | none => (s, ["错误：缺少BV号参数"], none)
    | some bv =>
        if bv = "" then (s, ["错误：缺少BV号参数"], none)
        else
          (update_task_status s now newTaskId .pending 0 "任务已创建" none none none none,
           [sse_create_text newTaskId bv], some (newTaskId, bv))
  else if name = "get_task_status" then
    match args.task_id with
    | none => (s, ["错误：缺少任务ID参数"], none)
    | some tid =>
        if tid = "" then (s, ["错误：缺少任务ID参数"], none)
        else match storeGet s tid with
          | none => (s, ["错误：找不到任务 " ++ tid], none)
          | some task => (s, [sse_status_text task], none)
  else if name = "get_audio_segments" then
    match args.task_id with
    | none => (s, ["错误：缺少任务ID参数"], none)
    | some tid =>
        if tid = "" then (s, ["错误：缺少任务ID参数"], none)
        else match storeGet s tid with
          | none => (s, ["错误：找不到任务 " ++ tid], none)
          | some task =>
              if task.status ≠ .completed then
                (s, ["任务尚未完成，当前状态: " ++ task.status.value], none)
              else (s, [sse_segments_text task], none)
  else if name = "cancel_task" then
    match args.task_id with
    | none => (s, ["错误：缺少任务ID参数"], none)
    | some tid =>
        if tid = "" then (s, ["错误：缺少任务ID参数"], none)
        else match storeGet s tid with
          | none => (s, ["错误：找不到任务 " ++ tid], none)
          | some task =>
              if task.status = .completed ∨ task.status = .failed ∨
                  task.status = .cancelled then
                (s, ["任务已处于最终状态，无法取消: " ++ task.status.value], none)
              else
                (update_task_status s now tid .cancelled 0 "任务已取消" none none none none,
                 ["✅ 任务 " ++ tid ++ " 已成功取消"], none)
  else (s, ["未知工具: " ++ name], none)

/-! ### The direct-HTTP MCP tool surface (`app/mcp_routes.py`) -/

/-- `MCPToolCallResponse` (`mcp_routes.py` lines 42-44); `content` holds the
text of each `{"type": "text", ...}` entry. -/
structure MCPToolCallResponse where
  content : List String
  isError : Bool
deriving DecidableEq, Repr

/-- Status text of the direct-HTTP `get_task_status` tool (`mcp_routes.py`
lines 170-194). -/
def routes_status_text (task : TaskRecord) : String :=
  "**任务状态**: " ++ task.status.value ++ "\n" ++
  "**进度**: " ++ toString task.progress ++ "%\n" ++
  "**消息**: " ++ task.message ++ "\n" ++
  "**创建时间**: " ++ toString task.created_at ++ "\n" ++
  "**更新时间**: " ++ toString task.updated_at ++ "\n" ++
  (match task.eta with
   | some e => if e = "" then "" else "**预计完成**: " ++ e ++ "\n"
   | none => "") ++
  (match task.processed_slices, task.total_slices with
   | some p, some t =>
       if p = 0 ∨ t = 0 then ""
       else "**音频片段**: " ++ toString p ++ "/" ++ toString t ++ "\n"
   | _, _ => "") ++
  (if task.status = .completed then
    "\n✅ **任务完成**！\n您可以使用 `get_audio_segments` 工具获取音频片段信息。\n结果URL: " ++
      task.result_url.getD "None"
   else if task.status = .failed then
    "\n❌ **任务失败**\n错误信息: " ++ task.message
   else "")

/-- Segment-listing text of the direct-HTTP `get_audio_segments` tool
(`mcp_routes.py` lines 217-227). -/
def routes_segments_text (task : TaskRecord) : String :=
  "**音频片段信息**\n\n" ++
  "**总片段数**: " ++ toString (match task.metadata with
    | some m => m.segment_count
    | none => (task.segments.getD []).length) ++ "\n" ++
  "**总时长**: " ++ toString (match task.metadata with
    | some m => m.total_duration
    | none => 0) ++ "秒\n" ++
  "**B站视频**: " ++ (match task.metadata with
    | some m => m.bv_number
    | none => "N/A") ++ "\n\n" ++
  "**片段列表**:\n" ++ segmentLines 1 (task.segments.getD [])

/-- Text of the direct-HTTP create tool's success response (`mcp_routes.py`
lines 142-153). -/
def routes_create_text (tid bv : String) : String :=
  "✅ 音频切分任务已创建\n\n**任务ID**: `" ++ tid ++ "`\n**B站视频**: " ++ bv ++
  "\n**状态**: 准备中\n\n任务正在后台处理中，您可以使用 `get_task_status` 工具查询进度。"

/-- The direct-HTTP `POST /tools/call` handler (`mcp_routes.py`
lines 123-265), acting on `app.mcp_routes.task_storage`.  Its create branch
only writes the Pending record — per the comment at lines 139-140 it never
schedules `process_video_task` (hence no job component here). -/
def mcpRoutes_call_tool (s : TaskStore) (now : Nat) (newTaskId : String)
    (name : String) (args : ToolArgs) : TaskStore × MCPToolCallResponse :=
  if name = "create_audio_segmentation_task" then
    match args.bv_number with
    | none => (s, ⟨["错误：缺少BV号参数"], true⟩)
    | some bv =>
        if bv = "" then (s, ⟨["错误：缺少BV号参数"], true⟩)
        else
          (update_task_status s now newTaskId .pending 0 "任务已创建" none none none none,
           ⟨[routes_create_text newTaskId bv], false⟩)
  else if name = "get_task_status" then
    match args.task_id with
    | none => (s, ⟨["错误：缺少任务ID参数"], true⟩)
    | some tid =>
        if tid = "" then (s, ⟨["错误：缺少任务ID参数"], true⟩)
        else match storeGet s tid with
          | none => (s, ⟨["错误：找不到任务 " ++ tid], true⟩)
          | some task => (s, ⟨[routes_status_text task], false⟩)
  else if name = "get_audio_segments" then
    match args.task_id with
    | none => (s, ⟨["错误：缺少任务ID参数"], true⟩)
    | some tid =>
        if tid = "" then (s, ⟨["错误：缺少任务ID参数"], true⟩)
        else match storeGet s tid with
          | none => (s, ⟨["错误：找不到任务 " ++ tid], true⟩)
          | some task =>
              if task.status ≠ .completed then
                (s, ⟨["任务尚未完成，当前状态: " ++ task.status.value], true⟩)
              else (s, ⟨[routes_segments_text task], false⟩)
  else if name = "cancel_task" then
    match args.task_id with
    | none => (s, ⟨["错误：缺少任务ID参数"], true⟩)
    | some tid =>
        if tid = "" then (s, ⟨["错误：缺少任务ID参数"], true⟩)
        else match storeGet s tid with
          | none => (s, ⟨["错误：找不到任务 " ++ tid], true⟩)
          | some task =>
              if task.status = .completed ∨ task.status = .failed ∨
                  task.status = .cancelled then
                (s, ⟨["任务已处于最终状态，无法取消: " ++ task.status.value], true⟩)
              else
                (update_task_status s now tid .cancelled 0 "任务已取消" none none none none,
                 ⟨["✅ 任务 " ++ tid ++ " 已成功取消"], false⟩)
  else (s, ⟨["未知工具: " ++ name], true⟩)

/-- A direct-HTTP MCP tool call at process level: it reads and writes
`app.mcp_routes.task_storage` only. -/
def process_mcpRoutes_call_tool (ps : ProcessState) (now : Nat)
    (newTaskId : String) (name : String) (args : ToolArgs) :
    ProcessState × MCPToolCallResponse :=
  let res := mcpRoutes_call_tool ps.mcp_routes_storage now newTaskId name args
  ({ ps with mcp_routes_storage := res.1 }, res.2)

/-- An SSE MCP tool call at process level: it reads and writes
`app.tasks.task_storage` (imported by `mcp_sse.py`). -/
def process_sse_call_tool (ps : ProcessState) (now : Nat) (newTaskId : String)
    (name : String) (args : ToolArgs) :
    ProcessState × List String × Option (String × String) :=
  let res := sse_call_tool ps.tasks_storage now newTaskId name args
  ({ ps with tasks_storage := res.1 }, res.2.1, res.2.2)

/-! ### REST endpoints (`tasks.py` lines 150-200) -/

/-- A REST response: either an `HTTPException` with its status code and
detail, or the endpoint's success payload. -/
inductive RestResponse where
  | httpError (code : Nat) (detail : String)
  | statusOk (r : TaskRecord)
  | segmentsOk (segments : List String) (metadata : Metadata)
  | fileOk (path : String) (filename : String)
deriving DecidableEq, Repr

/-- `os.path.basename`: the part of the path after the last `/`. -/
def basename (p : String) : String :=
  ⟨(p.data.reverse.takeWhile fun c => c ≠ '/').reverse⟩

/-- `GET /tasks/{task_id}` (`tasks.py` lines 150-156). -/
def rest_get_task_status (s : TaskStore) (tid : String) : RestResponse :=
  match storeGet s tid with
  | none => .httpError 404 "任务不存在"
  | some r => .statusOk r

/-- `GET /tasks/{task_id}/segments` (`tasks.py` lines 159-175). -/
def rest_get_audio_segments (s : TaskStore) (tid : String) : RestResponse :=
  match storeGet s tid with
  | none => .httpError 404 "任务不存在"
  | some task =>
      if task.status ≠ .completed then .httpError 400 "任务尚未完成"
      else match task.segments, task.metadata with
        | some segs, some m => .segmentsOk segs m
        | _, _ => .httpError 404 "音频片段信息不存在"

/-- `GET /tasks/{task_id}/download/{segment_index}` (`tasks.py`
lines 178-200).  The path parameter is a (possibly negative) integer; `fs`
is the set of paths that exist on disk (`os.path.exists`). -/
def download_audio_segment (s : TaskStore) (fs : Fs) (tid : String)
    (segment_index : Int) : RestResponse :=
  match storeGet s tid with
  | none => .httpError 404 "任务不存在"
  | some task =>
      if task.status ≠ .completed then .httpError 400 "任务尚未完成"
      else match task.segments with
        | none => .httpError 404 "音频片段信息不存在"
        | some segments =>
            if h : segment_index < 0 ∨ (segments.length : Int) ≤ segment_index then
              .httpError 400 "音频片段索引超出范围"
            else
              let p := segments.get ⟨segment_index.toNat, by omega⟩
              if p ∈ fs then .fileOk p (basename p)
              else .httpError 404 "音频片段文件不存在"

/-! ### The JSON-RPC message endpoint (`mcp_sse.py` lines 344-496) -/

/-- A JSON-RPC request id: a number, a string, or `null` (also used when the
`"id"` key is absent, since `body.get("id")` then yields `None`, serialized
as `null`). -/
inductive Jid where
  | num (n : Int)
  | str (s : String)
  | null
deriving DecidableEq, Repr

structure RpcError where
  code : Int
  message : String
deriving DecidableEq, Repr

/-- A view of a completed task as exposed by `read_resource` (`mcp_sse.py`
lines 241-250): `segments` defaults to `[]` and a missing `metadata` key to
the empty dict (`none` here). -/
structure TaskInfoView where
  task_id : String
  status : TaskStatus
  progress : Nat
  message : String
  created_at : Nat
  updated_at : Nat
  segments : List String
  metadata : Option Metadata
deriving DecidableEq, Repr

inductive ResourceOut where
  | errJson (msg : String)
  | info (v : TaskInfoView)
deriving DecidableEq, Repr

/-- `list_resources` (`mcp_sse.py` lines 216-229): the URIs of all Completed
tasks, in the store's insertion order. -/
def sse_list_resources (s : TaskStore) : List String :=
  (s.filter fun kr => kr.2.status = .completed).map
    fun kr => "bili2text://tasks/" ++ kr.1

/-- `read_resource` (`mcp_sse.py` lines 232-253).  The Python
`uri.replace("bili2text://tasks/", "")` removes the leading scheme prefix;
for ids that do not themselves contain that substring (every generated
UUID), this equals dropping the prefix. -/
def sse_read_resource (s : TaskStore) (uri : String) : ResourceOut :=
  if "bili2text://tasks/".data.isPrefixOf uri.data then
    let tid : String := ⟨uri.data.drop "bili2text://tasks/".data.length⟩
    match storeGet s tid with
    | none => .errJson ("找不到任务: " ++ tid)
    | some task =>
        .info ⟨tid, task.status, task.progress, task.message, task.created_at,
               task.updated_at, task.segments.getD [], task.metadata⟩
  else .errJson ("不支持的资源URI: " ++ uri)

/-- The payload of a successful JSON-RPC response, per method. -/
inductive RpcResult where
  | toolList (names : List String)
  | toolContent (texts : List String)
  | resourceList (uris : List String)
  | resourceContents (content : ResourceOut)
deriving DecidableEq, Repr

/-- A JSON-RPC response: `{"jsonrpc":"2.0","id":...,"result":...}` or
`{"jsonrpc":"2.0","id":...,"error":{...}}`. -/
inductive RpcOut where
  | ok (id : Jid) (result : RpcResult)
  | err (id : Jid) (e : RpcError)
deriving DecidableEq, Repr

/-- The fields `handle_messages` reads out of a parsed JSON body:
`"jsonrpc" in body`, `body.get("id")`, `body.get("method")`, and the
`params` sub-fields each branch uses. -/
structure RpcRequest where
  has_jsonrpc : Bool
  id : Jid
  method : String
  param_name : Option String
  param_args : ToolArgs
  param_uri : Option String
deriving DecidableEq, Repr

/-- The names of the four tools in `list_tools` (`mcp_sse.py` lines 51-101);
their descriptions and input schemas are static text not modelled further. -/
def mcp_tool_names : List String :=
  ["create_audio_segmentation_task", "get_task_status", "get_audio_segments",
   "cancel_task"]

/-- `POST /messages` (`mcp_sse.py` lines 344-496) on a successfully parsed
JSON body: validate the `jsonrpc` key, then dispatch on `method`; any other
method yields the JSON-RPC error `-32601` echoing the request id.  The
result is the store after the call, the response, and any background job
scheduled by a create tool call. -/
def handle_messages (s : TaskStore) (now : Nat) (newTaskId : String)
    (req : RpcRequest) : TaskStore × RpcOut × Option (String × String) :=
  if req.has_jsonrpc = false then
    (s, .err req.id ⟨-32600, "Invalid Request"⟩, none)
  else if req.method = "tools/list" then
    (s, .ok req.id (.toolList mcp_tool_names), none)
  else if req.method = "tools/call" then
    match req.param_name with
    | none => (s, .err req.id ⟨-32602, "Invalid params: missing tool name"⟩, none)
    | some nm =>
        if nm = "" then
          (s, .err req.id ⟨-32602, "Invalid params: missing tool name"⟩, none)
        else
          let res := sse_call_tool s now newTaskId nm req.param_args
          (res.1, .ok req.id (.toolContent res.2.1), res.2.2)
  else if req.method = "resources/list" then
    (s, .ok req.id (.resourceList (sse_list_resources s)), none)
  else if req.method = "resources/read" then
    match req.param_uri with
    | none => (s, .err req.id ⟨-32602, "Invalid params: missing uri"⟩, none)
    | some uri =>
        if uri = "" then
          (s, .err req.id ⟨-32602, "Invalid params: missing uri"⟩, none)
        else (s, .ok req.id (.resourceContents (sse_read_resource s uri)), none)
  else
    (s, .err req.id ⟨-32601, "Method not found: " ++ req.method⟩, none)

/-- The record written by `update_task_status`, in full. -/
def updatedRecord (now : Nat) (task_id : String) (status : TaskStatus)
    (progress : Nat) (message : String) (result_url : Option String)
    (eta : Option String) (processed_slices : Option Nat)
    (total_slices : Option Nat) : TaskRecord :=
  { task_id := task_id, status := status, progress := progress,
    message := message, created_at := now, updated_at := now, eta := eta,
    processed_slices := processed_slices, total_slices := total_slices,
    result_url := result_url, segments := none, metadata := none }

/-! ### The reachability invariant

A disjunct for every stage the record/pending-mutation pair can be in.
`freshRec` says the record is one freshly written by `update_task_status`
as far as the optional completion keys go: no `segments`, no `metadata`. -/

def freshRec (r : TaskRecord) : Prop := r.segments = none ∧ r.metadata = none

def InvCore (env : PipelineEnv) (tid bv : String) (rem : List OrchWrite)
    (r : TaskRecord) : Prop :=
  (rem = .wDownloading :: fetchChunk env ∧ freshRec r ∧
    (r.status = .pending ∨ r.status = .cancelled))
  ∨ (rem = fetchChunk env ∧ freshRec r ∧
    (r.status = .downloading ∨ r.status = .cancelled))
  ∨ (rem = extractChunk env ∧ freshRec r ∧
    (r.status = .processing ∨ r.status = .cancelled))
  ∨ (rem = splitChunk env ∧ freshRec r ∧
    (r.status = .processing ∨ r.status = .cancelled))
  ∨ (rem = [.wSegments, .wMetadata] ∧ freshRec r ∧ r.status = .completed)
  ∨ (rem = [.wMetadata] ∧ r.segments = some (segmentsOf env) ∧
    r.metadata = none ∧ r.status = .completed)
  ∨ (rem = [] ∧
      ((r.segments = some (segmentsOf env) ∧
        r.metadata = some (metadataOf env tid bv) ∧ r.status = .completed)
       ∨ (freshRec r ∧ r.status = .failed)))

def Inv (env : PipelineEnv) (tid bv : String) (st : TraceState) : Prop :=
  ∃ r, storeGet st.store tid = some r ∧ InvCore env tid bv st.rem r

/-! ### Concrete instances used in closed corollaries and witnesses -/

/-- A pipeline environment in which all three steps succeed and
`os.listdir` shows two slice files (deliberately unsorted). -/
def envHappy : PipelineEnv :=
  { fetch_ok := true, fetch_msg := "", extract_ok := true, extract_msg := "",
    audio_path := "./temp/t1/BV1.wav", split_ok := true, split_msg := "",
    slices_dir := "./temp/t1/slices", listing := ["001.wav", "000.wav"] }

/-- `envHappy` with a failing fetch step. -/
def envFetchFail : PipelineEnv :=
  { envHappy with fetch_ok := false, fetch_msg := "network timeout" }

/-- `envHappy` with four produced slices. -/
def envFourSlices : PipelineEnv :=
  { envHappy with listing := ["000.wav", "001.wav", "002.wav", "003.wav"] }

/-- A freshly created Pending record. -/
def recPendingW : TaskRecord :=
  updatedRecord 0 "t1" .pending 0 "任务已创建" none none none none

/-- A Completed record with its completion keys, as a store value. -/
def recCompletedW : TaskRecord :=
  { updatedRecord 3 "t1" .completed 100 "音频切分完成"
      (some "/api/v1/tasks/t1/segments") none none none with
    segments := some ["./temp/t1/slices/000.wav", "./temp/t1/slices/001.wav"],
    metadata := some ⟨60, 2, "BV1", "t1"⟩ }

def storePendingW : TaskStore := [("t1", recPendingW)]

def storeCompletedW : TaskStore := [("t1", recCompletedW)]

/-- The record after a full happy-path run over `envHappy` (creation at
clock 0, the six orchestrator mutations at clocks 1-6). -/
def recCompletedRun : TaskRecord :=
  { updatedRecord 4 "t1" .completed 100 "音频切分完成"
      (some "/api/v1/tasks/t1/segments") none none none with
    segments := some (segmentsOf envHappy),
    metadata := some (metadataOf envHappy "t1" "BV1") }


/-! ### Store lemmas -/

theorem storeGet_storeSet_self (s : TaskStore) (tid : String) (r : TaskRecord) :
    storeGet (storeSet s tid r) tid = some r := by
  induction s with
  | nil => simp [storeSet, storeGet]
  | cons kr rest ih =>
      obtain ⟨k, r'⟩ := kr
      by_cases h : k = tid <;> simp [storeSet, storeGet, h, ih]

theorem storeGet_storeSet_ne (s : TaskStore) (tid k : String) (r : TaskRecord)
    (h : k ≠ tid) : storeGet (storeSet s tid r) k = storeGet s k := by
  induction s with
  | nil => simp [storeSet, storeGet, Ne.symm h]
  | cons kr rest ih =>
      obtain ⟨k', r'⟩ := kr
      by_cases h' : k' = tid <;> by_cases h'' : k' = k <;>
        simp_all [storeSet, storeGet]


theorem storeGet_update_self (s : TaskStore) (now : Nat) (tid : String)
    (st : TaskStatus) (p : Nat) (m : String) (ru eta : Option String)
    (ps ts : Option Nat) :
    storeGet (update_task_status s now tid st p m ru eta ps ts) tid =
      some (updatedRecord now tid st p m ru eta ps ts) :=
  storeGet_storeSet_self ..

theorem storeGet_update_ne (s : TaskStore) (now : Nat) (tid k : String)
    (st : TaskStatus) (p : Nat) (m : String) (ru eta : Option String)
    (ps ts : Option Nat) (h : k ≠ tid) :
    storeGet (update_task_status s now tid st p m ru eta ps ts) k = storeGet s k :=
  storeGet_storeSet_ne _ _ _ _ h

theorem storeGet_setSegments_self (s : TaskStore) (tid : String)
    (segs : List String) (r : TaskRecord) (h : storeGet s tid = some r) :
    storeGet (setSegments s tid segs) tid = some { r with segments := some segs } := by
  simp [setSegments, h, storeGet_storeSet_self]

theorem storeGet_setMetadata_self (s : TaskStore) (tid : String)
    (m : Metadata) (r : TaskRecord) (h : storeGet s tid = some r) :
    storeGet (setMetadata s tid m) tid = some { r with metadata := some m } := by
  simp [setMetadata, h, storeGet_storeSet_self]

theorem storeGet_setSegments_ne (s : TaskStore) (tid k : String)
    (segs : List String) (h : k ≠ tid) :
    storeGet (setSegments s tid segs) k = storeGet s k := by
  unfold setSegments
  cases storeGet s tid with
  | none => rfl
  | some r => exact storeGet_storeSet_ne _ _ _ _ h

theorem storeGet_setMetadata_ne (s : TaskStore) (tid k : String)
    (m : Metadata) (h : k ≠ tid) :
    storeGet (setMetadata s tid m) k = storeGet s k := by
  unfold setMetadata
  cases storeGet s tid with
  | none => rfl
  | some r => exact storeGet_storeSet_ne _ _ _ _ h


theorem inv_init (env : PipelineEnv) (tid bv : String) (s0 : TaskStore) :
    Inv env tid bv (initState env tid s0) := by
  refine ⟨_, storeGet_update_self .., ?_⟩
  exact Or.inl ⟨rfl, ⟨rfl, rfl⟩, Or.inl rfl⟩

theorem cancel_tool_store_terminal (s : TaskStore) (now : Nat) (tid : String)
    (r : TaskRecord) (hr : storeGet s tid = some r)
    (hterm : r.status = .completed ∨ r.status = .failed ∨ r.status = .cancelled) :
    cancel_tool_store s now tid = s := by
  unfold cancel_tool_store
  rw [hr]
  exact if_pos hterm

theorem cancel_tool_store_active (s : TaskStore) (now : Nat) (tid : String)
    (r : TaskRecord) (hr : storeGet s tid = some r)
    (hterm : ¬(r.status = .completed ∨ r.status = .failed ∨ r.status = .cancelled)) :
    cancel_tool_store s now tid =
      update_task_status s now tid .cancelled 0 "任务已取消" none none none none := by
  unfold cancel_tool_store
  rw [hr]
  exact if_neg hterm

theorem inv_step (env : PipelineEnv) (tid bv : String) (st : TraceState) (ev : Ev)
    (h : Inv env tid bv st) : Inv env tid bv (stepEv env tid bv st ev) := by
  obtain ⟨r, hr, hcore⟩ := h
  cases ev with
  | cancel =>
      simp only [stepEv]
      by_cases hterm : r.status = .completed ∨ r.status = .failed ∨ r.status = .cancelled
      · rw [cancel_tool_store_terminal _ _ _ _ hr hterm]
        exact ⟨r, hr, hcore⟩
      · rw [cancel_tool_store_active _ _ _ _ hr hterm]
        refine ⟨_, storeGet_update_self .., ?_⟩
        rcases hcore with ⟨hrem, _, _⟩ | ⟨hrem, _, _⟩ | ⟨hrem, _, _⟩ | ⟨hrem, _, _⟩ |
          ⟨_, _, hs⟩ | ⟨_, _, _, hs⟩ | ⟨_, hc⟩
        · exact Or.inl ⟨hrem, ⟨rfl, rfl⟩, Or.inr rfl⟩
        · exact Or.inr (Or.inl ⟨hrem, ⟨rfl, rfl⟩, Or.inr rfl⟩)
        · exact Or.inr (Or.inr (Or.inl ⟨hrem, ⟨rfl, rfl⟩, Or.inr rfl⟩))
        · exact Or.inr (Or.inr (Or.inr (Or.inl ⟨hrem, ⟨rfl, rfl⟩, Or.inr rfl⟩)))
        · exact absurd (Or.inl hs) hterm
        · exact absurd (Or.inl hs) hterm
        · rcases hc with ⟨_, _, hs⟩ | ⟨_, hs⟩
          · exact absurd (Or.inl hs) hterm
          · exact absurd (Or.inr (Or.inl hs)) hterm
  | orch =>
      simp only [stepEv]
      rcases hcore with ⟨hrem, hf, hs⟩ | ⟨hrem, hf, hs⟩ | ⟨hrem, hf, hs⟩ | ⟨hrem, hf, hs⟩ |
        ⟨hrem, hf, hs⟩ | ⟨hrem, hseg, hmet, hs⟩ | ⟨hrem, hc⟩
      · -- about to run the Downloading write
        rw [hrem]
        refine ⟨_, storeGet_update_self .., ?_⟩
        exact Or.inr (Or.inl ⟨rfl, ⟨rfl, rfl⟩, Or.inl rfl⟩)
      · -- about to run the write after `download_video` returned
        cases hfo : env.fetch_ok with
        | false =>
            have hfc : fetchChunk env =
                [.wFailed ("任务失败: 视频下载失败: " ++ env.fetch_msg)] := by
              simp [fetchChunk, hfo]
            rw [hrem, hfc]
            refine ⟨_, storeGet_update_self .., ?_⟩
            exact Or.inr (Or.inr (Or.inr (Or.inr (Or.inr (Or.inr
              ⟨rfl, Or.inr ⟨⟨rfl, rfl⟩, rfl⟩⟩)))))
        | true =>
            have hfc : fetchChunk env = .wProcessing30 :: extractChunk env := by
              simp [fetchChunk, hfo]
            rw [hrem, hfc]
            refine ⟨_, storeGet_update_self .., ?_⟩
            exact Or.inr (Or.inr (Or.inl ⟨rfl, ⟨rfl, rfl⟩, Or.inl rfl⟩))
      · -- about to run the write after `extract_audio` returned
        cases heo : env.extract_ok with
        | false =>
            have hec : extractChunk env =
                [.wFailed ("任务失败: 音频提取失败: " ++ env.extract_msg)] := by
              simp [extractChunk, heo]
            rw [hrem, hec]
            refine ⟨_, storeGet_update_self .., ?_⟩
            exact Or.inr (Or.inr (Or.inr (Or.inr (Or.inr (Or.inr
              ⟨rfl, Or.inr ⟨⟨rfl, rfl⟩, rfl⟩⟩)))))
        | true =>
            have hec : extractChunk env = .wProcessing60 :: splitChunk env := by
              simp [extractChunk, heo]
            rw [hrem, hec]
            refine ⟨_, storeGet_update_self .., ?_⟩
            exact Or.inr (Or.inr (Or.inr (Or.inl ⟨rfl, ⟨rfl, rfl⟩, Or.inl rfl⟩)))
      · -- about to run the write after `split_audio` returned
        cases hso : env.split_ok with
        | false =>
            have hsc : splitChunk env =
                [.wFailed ("任务失败: 音频分割失败: " ++ env.split_msg)] := by
              simp [splitChunk, hso]
            rw [hrem, hsc]
            refine ⟨_, storeGet_update_self .., ?_⟩
            exact Or.inr (Or.inr (Or.inr (Or.inr (Or.inr (Or.inr
              ⟨rfl, Or.inr ⟨⟨rfl, rfl⟩, rfl⟩⟩)))))
        | true =>
            have hsc : splitChunk env = [.wCompleted, .wSegments, .wMetadata] := by
              simp [splitChunk, hso]
            rw [hrem, hsc]
            refine ⟨_, storeGet_update_self .., ?_⟩
            exact Or.inr (Or.inr (Or.inr (Or.inr (Or.inl ⟨rfl, ⟨rfl, rfl⟩, rfl⟩))))
      · -- about to run the `segments` key assignment
        rw [hrem]
        refine ⟨_, storeGet_setSegments_self _ _ _ _ hr, ?_⟩
        exact Or.inr (Or.inr (Or.inr (Or.inr (Or.inr (Or.inl ⟨rfl, rfl, hf.2, hs⟩)))))
      · -- about to run the `metadata` key assignment
        rw [hrem]
        refine ⟨_, storeGet_setMetadata_self _ _ _ _ hr, ?_⟩
        exact Or.inr (Or.inr (Or.inr (Or.inr (Or.inr (Or.inr
          ⟨rfl, Or.inl ⟨hseg, rfl, hs⟩⟩)))))
      · -- nothing left to run
        rw [hrem]
        exact ⟨r, hr, Or.inr (Or.inr (Or.inr (Or.inr (Or.inr (Or.inr ⟨hrem, hc⟩)))))⟩

theorem inv_foldl (env : PipelineEnv) (tid bv : String) (evs : List Ev)
    (st : TraceState) (h : Inv env tid bv st) :
    Inv env tid bv (evs.foldl (stepEv env tid bv) st) := by
  induction evs generalizing st with
  | nil => exact h
  | cons e rest ih => exact ih _ (inv_step env tid bv st e h)

theorem inv_runEvents (env : PipelineEnv) (tid bv : String) (s0 : TaskStore)
    (evs : List Ev) : Inv env tid bv (runEvents env tid bv s0 evs) :=
  inv_foldl env tid bv evs _ (inv_init env tid bv s0)

/-- One event cannot move a record out of Completed or Failed: the only
orchestrator mutations that can still be pending at that point leave the
status field untouched, and `cancel_task` refuses terminal records. -/
theorem terminal_sticky_step (env : PipelineEnv) (tid bv : String)
    (st : TraceState) (ev : Ev) (h : Inv env tid bv st) (r : TaskRecord)
    (hr : storeGet st.store tid = some r)
    (hterm : r.status = .completed ∨ r.status = .failed) :
    ∃ r', storeGet (stepEv env tid bv st ev).store tid = some r' ∧
      r'.status = r.status := by
  obtain ⟨r₀, hr₀, hcore⟩ := h
  have hrr : r₀ = r := Option.some.inj (hr₀.symm.trans hr)
  subst hrr
  cases ev with
  | cancel =>
      simp only [stepEv]
      rw [cancel_tool_store_terminal _ _ _ _ hr
        (hterm.elim (fun h' => Or.inl h') (fun h' => Or.inr (Or.inl h')))]
      exact ⟨r₀, hr, rfl⟩
  | orch =>
      simp only [stepEv]
      rcases hcore with ⟨hrem, hf, hs⟩ | ⟨hrem, hf, hs⟩ | ⟨hrem, hf, hs⟩ | ⟨hrem, hf, hs⟩ |
        ⟨hrem, hf, hs⟩ | ⟨hrem, hseg, hmet, hs⟩ | ⟨hrem, hc⟩
      · rcases hs with hs | hs <;> rcases hterm with ht | ht <;> rw [hs] at ht <;> cases ht
      · rcases hs with hs | hs <;> rcases hterm with ht | ht <;> rw [hs] at ht <;> cases ht
      · rcases hs with hs | hs <;> rcases hterm with ht | ht <;> rw [hs] at ht <;> cases ht
      · rcases hs with hs | hs <;> rcases hterm with ht | ht <;> rw [hs] at ht <;> cases ht
      · rw [hrem]
        exact ⟨_, storeGet_setSegments_self _ _ _ _ hr, rfl⟩
      · rw [hrem]
        exact ⟨_, storeGet_setMetadata_self _ _ _ _ hr, rfl⟩
      · rw [hrem]
        exact ⟨r₀, hr, rfl⟩

theorem terminal_sticky_foldl (env : PipelineEnv) (tid bv : String)
    (tail : List Ev) (st : TraceState) (hinv : Inv env tid bv st)
    (r : TaskRecord) (hr : storeGet st.store tid = some r)
    (hterm : r.status = .completed ∨ r.status = .failed) :
    ∃ r', storeGet (tail.foldl (stepEv env tid bv) st).store tid = some r' ∧
      r'.status = r.status := by
  induction tail generalizing st r with
  | nil => exact ⟨r, hr, rfl⟩
  | cons e rest ih =>
      obtain ⟨r', hr', hstat⟩ := terminal_sticky_step env tid bv st e hinv r hr hterm
      obtain ⟨r'', hr'', hstat'⟩ :=
        ih (stepEv env tid bv st e) (inv_step env tid bv st e hinv) r' hr'
          (by rw [hstat]; exact hterm)
      exact ⟨r'', hr'', hstat'.trans hstat⟩

/-! ### The claims -/

/-- C1: the spec claims the Task Store is one process-wide mapping shared by
both protocol surfaces.  The code disagrees with its own comment
(`mcp_routes.py` line 18 says the dict is shared with `tasks.py`, but line 19
creates a fresh one): after a REST create of task `"t1"`, the direct-HTTP
MCP `get_task_status` tool reports the task as unknown, because it reads
`app.mcp_routes.task_storage`, while the record sits in
`app.tasks.task_storage` (which the SSE transport does share). -/
theorem mcp_routes_store_not_shared :
    (storeGet (rest_create_task initialProcess 0 "t1").tasks_storage "t1").isSome
      = true ∧
    storeGet (rest_create_task initialProcess 0 "t1").mcp_routes_storage "t1"
      = none ∧
    (process_mcpRoutes_call_tool (rest_create_task initialProcess 0 "t1") 1 "n1"
        "get_task_status" ⟨none, some "t1"⟩).2
      = ⟨["错误：找不到任务 t1"], true⟩ ∧
    (process_sse_call_tool (rest_create_task initialProcess 0 "t1") 1 "n1"
        "get_task_status" ⟨none, some "t1"⟩).2.1
      ≠ ["错误：找不到任务 t1"] := by decide

/-- C5: the metadata's `total_duration` is computed as slice count × 30
(`tasks.py` line 72), not slice count × 45 s as the 45000 ms segmentation
default of `split_audio` would give: on a completed run with 4 slices the
stored value is 120, while slices × nominal slice duration is 180. -/
theorem total_duration_uses_30_not_45 :
    (storeGet (process_video_task envFourSlices "t1" "BV1" 1
        (update_task_status [] 0 "t1" .pending 0 "任务已创建，正在排队处理"
          none none none none) []).1 "t1").map (fun r => r.metadata)
      = some (some ⟨120, 4, "BV1", "t1"⟩) ∧
    split_audio_slice_length_default / 1000 = 45 ∧
    (120 : Nat) ≠ 4 * 45 := by decide

/-- C8: if the fetch step fails with some failure detail, the record ends as
Failed with progress 0 and a message containing that detail, with no
`segments`/`metadata`, and with the task-scoped working directory removed. -/
theorem fetch_failure_contract (env : PipelineEnv) (tid bv : String)
    (now : Nat) (s0 : TaskStore) (fs0 : Fs) (hf : env.fetch_ok = false) :
    (∃ r, storeGet (process_video_task env tid bv now s0 fs0).1 tid = some r ∧
      r.status = .failed ∧ r.progress = 0 ∧
      (∃ pre, r.message = pre ++ env.fetch_msg) ∧
      r.segments = none ∧ r.metadata = none) ∧
    workdir tid ∉ (process_video_task env tid bv now s0 fs0).2 := by
  have hprog : orchProgram env =
      [.wDownloading, .wFailed ("任务失败: 视频下载失败: " ++ env.fetch_msg)] := by
    simp [orchProgram, fetchChunk, hf]
  unfold process_video_task
  rw [hprog, hf]
  simp only [Bool.false_and, Bool.false_eq_true, if_false]
  constructor
  · refine ⟨updatedRecord (now + 1) tid .failed 0
        ("任务失败: 视频下载失败: " ++ env.fetch_msg) none none none none,
      ?_, rfl, rfl, ⟨"任务失败: 视频下载失败: ", rfl⟩, rfl, rfl⟩
    simp only [runProgram, applyWrite]
    exact storeGet_update_self ..
  · simp [cleanup_temp_files, List.mem_filter]

/-- C8 witness: the contract evaluated at a concrete fetch failure with
detail "network timeout". -/
theorem fetch_failure_witness :
    (∃ r, storeGet (process_video_task envFetchFail "t1" "BV1" 1 storePendingW
        []).1 "t1" = some r ∧
      r.status = .failed ∧ r.progress = 0 ∧
      (∃ pre, r.message = pre ++ envFetchFail.fetch_msg) ∧
      r.segments = none ∧ r.metadata = none) ∧
    workdir "t1" ∉ (process_video_task envFetchFail "t1" "BV1" 1 storePendingW []).2 :=
  fetch_failure_contract envFetchFail "t1" "BV1" 1 storePendingW [] (by decide)

/-- C9: a JSON-RPC request to `POST /messages` whose method is none of the
four supported ones yields the error object `-32601` echoing the request id,
modifies no task record, and schedules nothing. -/
theorem unknown_method_contract (s : TaskStore) (now : Nat) (nid : String)
    (req : RpcRequest) (hj : req.has_jsonrpc = true)
    (hm : req.method ∉ ["tools/list", "tools/call", "resources/list",
      "resources/read"]) :
    handle_messages s now nid req =
      (s, .err req.id ⟨-32601, "Method not found: " ++ req.method⟩, none) := by
  simp only [List.mem_cons, List.mem_singleton, not_or] at hm
  obtain ⟨h1, h2, h3, h4⟩ := hm
  unfold handle_messages
  rw [hj]
  simp [h1, h2, h3, h4]

/-- C4 counterexample: after creation at clock 0 the record's `created_at`
is 0, yet the very next mutation rewrites it to 1; and an upsert on a
record holding `segments` drops that key entirely. -/
theorem upsert_rewrites_created_at :
    (storeGet (runEvents envHappy "t1" "BV1" [] []).store "t1").map
        (fun r => r.created_at) = some 0 ∧
    (storeGet (runEvents envHappy "t1" "BV1" [] [.orch]).store "t1").map
        (fun r => r.created_at) = some 1 ∧
    recCompletedW.segments ≠ none ∧
    (storeGet (update_task_status storeCompletedW 9 "t1" .processing 30 "x"
        none none none none) "t1").map
        (fun r => (r.segments, r.created_at, r.updated_at))
      = some (none, 9, 9) := by decide

/-- C4 (amended): `update_task_status` does not merge: it replaces the whole
record, setting both `created_at` and `updated_at` to the current time and
resetting every field that is not passed (`segments`/`metadata` in
particular become absent); records under other task ids are untouched, and
the two direct completion-key assignments modify only their own field. -/
theorem update_replaces_whole_record (s : TaskStore) (now : Nat) (tid : String)
    (st : TaskStatus) (p : Nat) (msg : String) (ru eta : Option String)
    (ps ts : Option Nat) :
    storeGet (update_task_status s now tid st p msg ru eta ps ts) tid =
      some (updatedRecord now tid st p msg ru eta ps ts) ∧
    (updatedRecord now tid st p msg ru eta ps ts).created_at = now ∧
    (updatedRecord now tid st p msg ru eta ps ts).updated_at = now ∧
    (updatedRecord now tid st p msg ru eta ps ts).segments = none ∧
    (updatedRecord now tid st p msg ru eta ps ts).metadata = none ∧
    (∀ k, k ≠ tid →
      storeGet (update_task_status s now tid st p msg ru eta ps ts) k
        = storeGet s k) ∧
    (∀ r segs, storeGet s tid = some r →
      storeGet (setSegments s tid segs) tid
        = some { r with segments := some segs }) ∧
    (∀ r m, storeGet s tid = some r →
      storeGet (setMetadata s tid m) tid
        = some { r with metadata := some m }) := by
  refine ⟨storeGet_update_self .., rfl, rfl, rfl, rfl, ?_, ?_, ?_⟩
  · intro k hk
    exact storeGet_update_ne s now tid k st p msg ru eta ps ts hk
  · intro r segs h
    exact storeGet_setSegments_self s tid segs r h
  · intro r m h
    exact storeGet_setMetadata_self s tid m r h

/-- C4 witness: the replacing upsert evaluated on a store holding a Completed
record with segments: the new record has `created_at = updated_at = 9` and no
segments; an unrelated key is untouched; `setSegments` only adds its key. -/
theorem update_replaces_witness :
    storeGet (update_task_status storeCompletedW 9 "t1" .processing 30 "m"
        none none none none) "t1"
      = some (updatedRecord 9 "t1" .processing 30 "m" none none none none) ∧
    storeGet (update_task_status storeCompletedW 9 "t1" .processing 30 "m"
        none none none none) "t2" = storeGet storeCompletedW "t2" ∧
    storeGet (setSegments storeCompletedW "t1" ["x.wav"]) "t1"
      = some { recCompletedW with segments := some ["x.wav"] } := by
  have h := update_replaces_whole_record storeCompletedW 9 "t1" .processing 30
    "m" none none none none
  exact ⟨h.1, h.2.2.2.2.2.1 "t2" (by decide),
    h.2.2.2.2.2.2.1 recCompletedW ["x.wav"] (by decide)⟩

/-- C6: on both MCP surfaces, cancelling a Pending/Downloading/Processing
task writes status Cancelled, while cancelling a Completed/Failed/Cancelled
task returns an error response naming the current terminal state and leaves
the store exactly as it was. -/
theorem cancel_tool_contract (s : TaskStore) (now : Nat) (nid tid : String)
    (r : TaskRecord) (hr : storeGet s tid = some r) (hne : tid ≠ "") :
    ((r.status = .pending ∨ r.status = .downloading ∨ r.status = .processing) →
      (∃ r', storeGet (sse_call_tool s now nid "cancel_task"
          ⟨none, some tid⟩).1 tid = some r' ∧ r'.status = .cancelled) ∧
      (∃ r', storeGet (mcpRoutes_call_tool s now nid "cancel_task"
          ⟨none, some tid⟩).1 tid = some r' ∧ r'.status = .cancelled)) ∧
    ((r.status = .completed ∨ r.status = .failed ∨ r.status = .cancelled) →
      (sse_call_tool s now nid "cancel_task" ⟨none, some tid⟩).1 = s ∧
      (sse_call_tool s now nid "cancel_task" ⟨none, some tid⟩).2.1 =
        ["任务已处于最终状态，无法取消: " ++ r.status.value] ∧
      (mcpRoutes_call_tool s now nid "cancel_task" ⟨none, some tid⟩).1 = s ∧
      (mcpRoutes_call_tool s now nid "cancel_task" ⟨none, some tid⟩).2 =
        ⟨["任务已处于最终状态，无法取消: " ++ r.status.value], true⟩) := by
  have hsse : sse_call_tool s now nid "cancel_task" ⟨none, some tid⟩ =
      if r.status = .completed ∨ r.status = .failed ∨ r.status = .cancelled then
        (s, ["任务已处于最终状态，无法取消: " ++ r.status.value], none)
      else
        (update_task_status s now tid .cancelled 0 "任务已取消" none none none none,
         ["✅ 任务 " ++ tid ++ " 已成功取消"], none) := by
    simp [sse_call_tool, hne, hr]
  have hroutes : mcpRoutes_call_tool s now nid "cancel_task" ⟨none, some tid⟩ =
      if r.status = .completed ∨ r.status = .failed ∨ r.status = .cancelled then
        (s, ⟨["任务已处于最终状态，无法取消: " ++ r.status.value], true⟩)
      else
        (update_task_status s now tid .cancelled 0 "任务已取消" none none none none,
         ⟨["✅ 任务 " ++ tid ++ " 已成功取消"], false⟩) := by
    simp [mcpRoutes_call_tool, hne, hr]
  constructor
  · intro hact
    have hterm : ¬(r.status = .completed ∨ r.status = .failed ∨
        r.status = .cancelled) := by
      rcases hact with h | h | h <;> rw [h] <;> simp
    rw [hsse, hroutes, if_neg hterm, if_neg hterm]
    exact ⟨⟨_, storeGet_update_self .., rfl⟩, ⟨_, storeGet_update_self .., rfl⟩⟩
  · intro hterm
    rw [hsse, hroutes, if_pos hterm, if_pos hterm]
    exact ⟨rfl, rfl, rfl, rfl⟩

/-- C6 witness: cancelling the Pending task `"t1"` succeeds on the SSE
surface, and cancelling a Completed `"t1"` on the direct-HTTP surface leaves
the store unchanged with the error flagged. -/
theorem cancel_tool_witness :
    (∃ r', storeGet (sse_call_tool storePendingW 5 "n1" "cancel_task"
        ⟨none, some "t1"⟩).1 "t1" = some r' ∧ r'.status = .cancelled) ∧
    (mcpRoutes_call_tool storeCompletedW 5 "n1" "cancel_task"
        ⟨none, some "t1"⟩).1 = storeCompletedW ∧
    (mcpRoutes_call_tool storeCompletedW 5 "n1" "cancel_task"
        ⟨none, some "t1"⟩).2 =
      ⟨["任务已处于最终状态，无法取消: " ++ TaskStatus.completed.value], true⟩ := by
  refine ⟨?_, ?_, ?_⟩
  · exact ((cancel_tool_contract storePendingW 5 "n1" "t1" recPendingW
      (by decide) (by decide)).1 (Or.inl (by decide))).1
  · exact ((cancel_tool_contract storeCompletedW 5 "n1" "t1" recCompletedW
      (by decide) (by decide)).2 (Or.inl (by decide))).2.2.1
  · have := ((cancel_tool_contract storeCompletedW 5 "n1" "t1" recCompletedW
      (by decide) (by decide)).2 (Or.inl (by decide))).2.2.2
    rw [this]
    decide

/-- C7: for a Completed task with stored segments, the download endpoint
streams the i-th stored path for every 0 ≤ i < n whose artifact exists on
disk, responds 400 for every i < 0 or i ≥ n, and every path it ever streams
is an element of the stored segments list (the index check never reads
outside it). -/
theorem download_segment_index_contract (s : TaskStore) (fs : Fs)
    (tid : String) (task : TaskRecord) (segs : List String)
    (hr : storeGet s tid = some task) (hst : task.status = .completed)
    (hsegs : task.segments = some segs) :
    (∀ i : Int, 0 ≤ i → i < segs.length →
      ∀ p, segs[i.toNat]? = some p → p ∈ fs →
        download_audio_segment s fs tid i = .fileOk p (basename p)) ∧
    (∀ i : Int, i < 0 ∨ (segs.length : Int) ≤ i →
      download_audio_segment s fs tid i
        = .httpError 400 "音频片段索引超出范围") ∧
    (∀ i p fn, download_audio_segment s fs tid i = .fileOk p fn → p ∈ segs) := by
  have hred : ∀ i : Int, download_audio_segment s fs tid i =
      (if h : i < 0 ∨ (segs.length : Int) ≤ i then
        .httpError 400 "音频片段索引超出范围"
       else
        if segs.get ⟨i.toNat, by omega⟩ ∈ fs then
          .fileOk (segs.get ⟨i.toNat, by omega⟩)
            (basename (segs.get ⟨i.toNat, by omega⟩))
        else .httpError 404 "音频片段文件不存在") := by
    intro i
    unfold download_audio_segment
    rw [hr]
    simp [hst, hsegs]
  refine ⟨?_, ?_, ?_⟩
  · intro i h0 hlen p hp hfs
    rw [hred i]
    rw [dif_neg (by omega)]
    have hlt : i.toNat < segs.length := by omega
    rw [List.getElem?_eq_getElem hlt] at hp
    have hpe : segs.get ⟨i.toNat, hlt⟩ = p := Option.some.inj hp
    rw [if_pos (hpe ▸ hfs), hpe]
  · intro i hi
    rw [hred i]
    rw [dif_pos hi]
  · intro i p fn h
    rw [hred i] at h
    by_cases hb : i < 0 ∨ (segs.length : Int) ≤ i
    · rw [dif_pos hb] at h
      cases h
    · rw [dif_neg hb] at h
      by_cases hm : segs.get ⟨i.toNat, by omega⟩ ∈ fs
      · rw [if_pos hm] at h
        injection h with h1 h2
        subst h1
        exact List.get_mem ..
      · rw [if_neg hm] at h
        cases h

/-- C7 witness: on a Completed task with two stored segments (both on disk),
index 0 streams the first file and index -1 is rejected with 400. -/
theorem download_segment_witness :
    download_audio_segment storeCompletedW
        ["./temp/t1/slices/000.wav", "./temp/t1/slices/001.wav"] "t1" 0 =
      .fileOk "./temp/t1/slices/000.wav" "000.wav" ∧
    download_audio_segment storeCompletedW
        ["./temp/t1/slices/000.wav", "./temp/t1/slices/001.wav"] "t1" (-1) =
      .httpError 400 "音频片段索引超出范围" := by
  have h := download_segment_index_contract storeCompletedW
    ["./temp/t1/slices/000.wav", "./temp/t1/slices/001.wav"] "t1" recCompletedW
    ["./temp/t1/slices/000.wav", "./temp/t1/slices/001.wav"]
    (by decide) (by decide) (by decide)
  constructor
  · have h0 := h.1 0 (by norm_num) (by norm_num) "./temp/t1/slices/000.wav"
      (by decide) (by decide)
    rw [h0]
    decide
  · exact h.2.1 (-1) (Or.inl (by norm_num))

/-- C9 witness: the contract evaluated at the unknown method `"foo/bar"`
with id 1. -/
theorem unknown_method_witness :
    handle_messages storePendingW 5 "n1"
        ⟨true, .num 1, "foo/bar", none, ⟨none, none⟩, none⟩ =
      (storePendingW, .err (.num 1) ⟨-32601, "Method not found: foo/bar"⟩, none) := by
  rw [unknown_method_contract storePendingW 5 "n1"
    ⟨true, .num 1, "foo/bar", none, ⟨none, none⟩, none⟩ rfl (by decide)]
  decide

theorem fetchChunk_ne_nil (env : PipelineEnv) : fetchChunk env ≠ [] := by
  unfold fetchChunk
  split <;> simp

theorem extractChunk_ne_nil (env : PipelineEnv) : extractChunk env ≠ [] := by
  unfold extractChunk
  split <;> simp

theorem splitChunk_ne_nil (env : PipelineEnv) : splitChunk env ≠ [] := by
  unfold splitChunk
  split <;> simp

/-- C2 counterexample: cancelling during Downloading marks the record
Cancelled — a terminal state — yet the orchestrator's next pending write
moves it back to Processing, so terminal states are not sticky as claimed. -/
theorem cancelled_overwritten_by_pipeline :
    (storeGet (runEvents envHappy "t1" "BV1" [] [.orch, .cancel]).store
        "t1").map (fun r => r.status) = some .cancelled ∧
    (storeGet (runEvents envHappy "t1" "BV1" [] [.orch, .cancel, .orch]).store
        "t1").map (fun r => r.status) = some .processing := by decide

/-- C2 (amended): along any interleaving of orchestrator mutations and
cancellation requests, the observed status is always one of the six defined
values, and the Completed and Failed states are sticky: once observed, every
later observation returns the same status.  (Cancelled, by contrast, is not
sticky — see the counterexample: a still-running pipeline's next write
overwrites it, since `process_video_task` never re-reads the stored
status.) -/
theorem status_range_and_completed_failed_sticky (env : PipelineEnv)
    (tid bv : String) (s0 : TaskStore) (evs tail : List Ev) (r : TaskRecord)
    (hr : storeGet (runEvents env tid bv s0 evs).store tid = some r) :
    r.status ∈ [TaskStatus.pending, .downloading, .processing, .completed,
      .failed, .cancelled] ∧
    ((r.status = .completed ∨ r.status = .failed) →
      ∃ r', storeGet (runEvents env tid bv s0 (evs ++ tail)).store tid
          = some r' ∧ r'.status = r.status) := by
  constructor
  · cases r.status <;> simp
  · intro hterm
    have hsplit : runEvents env tid bv s0 (evs ++ tail) =
        tail.foldl (stepEv env tid bv) (runEvents env tid bv s0 evs) := by
      unfold runEvents
      rw [List.foldl_append]
    rw [hsplit]
    exact terminal_sticky_foldl env tid bv tail _
      (inv_runEvents env tid bv s0 evs) r hr hterm

/-- C2 witness: after a complete happy-path run the record is Completed, and
it stays Completed across a subsequent cancellation request. -/
theorem completed_sticky_witness :
    ∃ r', storeGet (runEvents envHappy "t1" "BV1" []
        ([.orch, .orch, .orch, .orch, .orch, .orch] ++ [.cancel])).store "t1"
      = some r' ∧ r'.status = recCompletedRun.status := by
  exact (status_range_and_completed_failed_sticky envHappy "t1" "BV1" []
    [.orch, .orch, .orch, .orch, .orch, .orch] [.cancel] recCompletedRun
    (by decide)).2 (Or.inl (by decide))

/-- C3 counterexample: between the Completed status write and the two
following key assignments, the record observably has status Completed with
`segments` and `metadata` still absent, so the "present iff Completed"
equivalence does not hold at every observation point. -/
theorem completed_without_segments_window :
    (storeGet (runEvents envHappy "t1" "BV1" []
        [.orch, .orch, .orch, .orch]).store "t1").map
      (fun r => (r.status, r.segments, r.metadata))
      = some (.completed, none, none) := by decide

/-- C3 (amended): at every observation point, a present `segments` or
`metadata` implies status Completed; and once the orchestrator has no
mutation left to run, presence of both is equivalent to status Completed.
The only failures of the unrestricted "iff" are the observation points
between the Completed status write and the two key assignments that follow
it (see the counterexample). -/
theorem segments_metadata_iff_completed (env : PipelineEnv) (tid bv : String)
    (s0 : TaskStore) (evs : List Ev) (r : TaskRecord)
    (hr : storeGet (runEvents env tid bv s0 evs).store tid = some r) :
    ((r.segments ≠ none ∨ r.metadata ≠ none) → r.status = .completed) ∧
    ((runEvents env tid bv s0 evs).rem = [] →
      ((r.segments ≠ none ∧ r.metadata ≠ none) ↔ r.status = .completed)) := by
  obtain ⟨r₀, hr₀, hcore⟩ := inv_runEvents env tid bv s0 evs
  have hrr : r₀ = r := Option.some.inj (hr₀.symm.trans hr)
  subst hrr
  constructor
  · intro hne
    rcases hcore with ⟨_, hf, _⟩ | ⟨_, hf, _⟩ | ⟨_, hf, _⟩ | ⟨_, hf, _⟩ |
      ⟨_, hf, hs⟩ | ⟨_, hseg, hmet, hs⟩ | ⟨_, hc⟩
    · rcases hne with hne | hne
      · exact absurd hf.1 hne
      · exact absurd hf.2 hne
    · rcases hne with hne | hne
      · exact absurd hf.1 hne
      · exact absurd hf.2 hne
    · rcases hne with hne | hne
      · exact absurd hf.1 hne
      · exact absurd hf.2 hne
    · rcases hne with hne | hne
      · exact absurd hf.1 hne
      · exact absurd hf.2 hne
    · exact hs
    · exact hs
    · rcases hc with ⟨_, _, hs⟩ | ⟨hf, _⟩
      · exact hs
      · rcases hne with hne | hne
        · exact absurd hf.1 hne
        · exact absurd hf.2 hne
  · intro hrem
    rcases hcore with ⟨hrm, _, _⟩ | ⟨hrm, _, _⟩ | ⟨hrm, _, _⟩ | ⟨hrm, _, _⟩ |
      ⟨hrm, _, _⟩ | ⟨hrm, _, _, _⟩ | ⟨_, hc⟩
    · rw [hrem] at hrm
      cases hrm
    · exact absurd (hrem ▸ hrm).symm (fetchChunk_ne_nil env)
    · exact absurd (hrem ▸ hrm).symm (extractChunk_ne_nil env)
    · exact absurd (hrem ▸ hrm).symm (splitChunk_ne_nil env)
    · rw [hrem] at hrm
      cases hrm
    · rw [hrem] at hrm
      cases hrm
    · rcases hc with ⟨hseg, hmet, hs⟩ | ⟨hf, hs⟩
      · constructor
        · intro _
          exact hs
        · intro _
          exact ⟨by rw [hseg]; exact Option.noConfusion, by rw [hmet]; exact Option.noConfusion⟩
      · constructor
        · intro hne
          exact absurd hf.1 hne.1
        · intro hcomp
          rw [hs] at hcomp
          cases hcomp

/-- C3 witness: the quiescent equivalence evaluated after a full happy-path
run: the record holds both keys and is Completed. -/
theorem segments_iff_completed_witness :
    (recCompletedRun.segments ≠ none ∧ recCompletedRun.metadata ≠ none) ↔
      recCompletedRun.status = .completed := by
  exact (segments_metadata_iff_completed envHappy "t1" "BV1" []
    [.orch, .orch, .orch, .orch, .orch, .orch] recCompletedRun (by decide)).2
    (by decide)

/-- Lexicographic comparison of lists is invariant under a common prefix. -/
theorem lex_append_left_iff (s t₁ t₂ : List Char) :
    List.Lex (· < ·) (s ++ t₁) (s ++ t₂) ↔ List.Lex (· < ·) t₁ t₂ := by
  induction s with
  | nil => simp
  | cons a s ih => simpa [List.Lex.cons_iff] using ih

/-- Appending a common prefix on the left is monotone for the string order. -/
theorem strDataLe_append_left (p a b : String) (h : strDataLe a b) :
    p ++ a ≤ p ++ b := by
  rw [String.le_iff_toList_le]
  have hx : (p ++ a).toList = p.toList ++ a.toList := String.data_append p a
  have hy : (p ++ b).toList = p.toList ++ b.toList := String.data_append p b
  rw [hx, hy, ← not_lt]
  intro hlt
  have hba : List.Lex (· < ·) b.toList a.toList :=
    (lex_append_left_iff p.toList b.toList a.toList).mp hlt
  exact absurd h (not_le.mpr hba)

/-- The segment paths the orchestrator stores are sorted: the file names are
sorted by `sorted(...)`, and every path prepends the same directory. -/
theorem sorted_segmentsOf (env : PipelineEnv) :
    List.Sorted (· ≤ ·) (segmentsOf env) := by
  unfold segmentsOf
  exact List.Pairwise.map _
    (fun a b hab => strDataLe_append_left (env.slices_dir ++ "/") a b hab)
    (List.sorted_insertionSort strDataLe _)

/-- C10: whenever a record holds both `segments` and `metadata`, the length
of the segments list equals `metadata["segment_count"]`, and the segments
list is sorted lexicographically.  (All paths share the slices-directory
prefix, so path order coincides with file-name order.) -/
theorem segments_count_and_sorted (env : PipelineEnv) (tid bv : String)
    (s0 : TaskStore) (evs : List Ev) (r : TaskRecord) (xs : List String)
    (m : Metadata)
    (hr : storeGet (runEvents env tid bv s0 evs).store tid = some r)
    (hxs : r.segments = some xs) (hm : r.metadata = some m) :
    xs.length = m.segment_count ∧ List.Sorted (· ≤ ·) xs := by
  obtain ⟨r₀, hr₀, hcore⟩ := inv_runEvents env tid bv s0 evs
  have hrr : r₀ = r := Option.some.inj (hr₀.symm.trans hr)
  subst hrr
  rcases hcore with ⟨_, hf, _⟩ | ⟨_, hf, _⟩ | ⟨_, hf, _⟩ | ⟨_, hf, _⟩ |
    ⟨_, hf, _⟩ | ⟨_, _, hmet, _⟩ | ⟨_, hc⟩
  · rw [hf.1] at hxs
    cases hxs
  · rw [hf.1] at hxs
    cases hxs
  · rw [hf.1] at hxs
    cases hxs
  · rw [hf.1] at hxs
    cases hxs
  · rw [hf.1] at hxs
    cases hxs
  · rw [hmet] at hm
    cases hm
  · rcases hc with ⟨hseg, hmet, _⟩ | ⟨hf, _⟩
    · rw [hseg] at hxs
      rw [hmet] at hm
      obtain rfl := Option.some.inj hxs
      obtain rfl := Option.some.inj hm
      constructor
      · simp [segmentsOf, metadataOf]
      · exact sorted_segmentsOf env
    · rw [hf.1] at hxs
      cases hxs

/-- C10 witness: after a full happy-path run over two (unsorted-on-disk)
slices, the stored list has length equal to `segment_count` and is sorted. -/
theorem segments_count_sorted_witness :
    (segmentsOf envHappy).length = (metadataOf envHappy "t1" "BV1").segment_count ∧
    List.Sorted (· ≤ ·) (segmentsOf envHappy) := by
  exact segments_count_and_sorted envHappy "t1" "BV1" []
    [.orch, .orch, .orch, .orch, .orch, .orch] recCompletedRun
    (segmentsOf envHappy) (metadataOf envHappy "t1" "BV1")
    (by decide) (by decide) (by decide)

end BiliAudio
